import Mathlib

/-!
Verification of the scalar request-construction and proxied-execution core
against its specification. Pure definitions embed the program's data model
and operations; theorems settle the specified properties.
-/

set_option autoImplicit false

namespace Scalar

/-! ## Variable Substitution Engine -/

/-- Opening placeholder delimiter (the character with code 123). -/
def openBrace : Char := Char.ofNat 123

/-- Closing placeholder delimiter (the character with code 125). -/
def closeBrace : Char := Char.ofNat 125

/-- First-match lookup in an association list of string pairs; models lookup of
a key in a JavaScript object with string values (keys unique, verbatim,
case-sensitive comparison). -/
def lookupVar : List (String × String) → String → Option String
  | [], _ => none
  | (k', v) :: rest, k => if k' = k then some v else lookupVar rest k

/-- Scan for the first closing delimiter: returns the characters strictly
before the first `closeBrace` together with the characters after it, or
`none` when no closing delimiter occurs. -/
def splitAtClose : List Char → Option (List Char × List Char)
  | [] => none
  | c :: cs =>
    if c = closeBrace then some ([], cs)
    else (splitAtClose cs).map (fun p => (c :: p.1, p.2))

/-- Result of one recognized placeholder with name `nm`: the value of the
variable when the name is a key of the map, the placeholder kept verbatim
with its delimiters otherwise; `tail` is the already-substituted remainder. -/
def placeholderResult (m : List (String × String)) (nm : List Char)
    (tail : List Char) : List Char :=
  match lookupVar m (String.mk nm) with
  | some v => v.data ++ tail
  | none => openBrace :: (nm ++ closeBrace :: tail)

/-- Modelled from the spec: the Variable Substitution Engine's scan, with an
explicit fuel argument (structural recursion) so that it evaluates by kernel
reduction; `substChars` instantiates the fuel with the list length. The
implementation of `replaceVariables` is not under src/ (only its test is), so
the scan follows §4.1 of the spec: a single left-to-right scan recognizing
delimiter pairs, verbatim lookup of the enclosed name, replacement by the
value when found, the placeholder kept with its delimiters when not found,
and unbalanced delimiters treated literally. -/
def substFuel (m : List (String × String)) : Nat → List Char → List Char
  | 0, l => l
  | _ + 1, [] => []
  | fuel + 1, c :: cs =>
    if c = openBrace then
      match splitAtClose cs with
      | none => c :: cs
      | some (nm, rest) => placeholderResult m nm (substFuel m fuel rest)
    else c :: substFuel m fuel cs

/-- Substitution on character lists: run the scan with enough fuel. -/
def substChars (m : List (String × String)) (l : List Char) : List Char :=
  substFuel m l.length l

/-- Modelled from the spec: `substitute(template, variables)` of §4.1; known
in the source as `replaceVariables` (its implementation file is missing from
src/, only `replaceVariables.test.ts` is present). Pure and total by
construction. -/
def substitute (template : String) (vars : List (String × String)) : String :=
  String.mk (substChars vars template.data)

/-- Source name of the substitution engine, as exercised by
`replaceVariables.test.ts`. -/
def replaceVariables (url : String) (vars : List (String × String)) : String :=
  substitute url vars

theorem splitAtClose_length {cs nm rest : List Char}
    (h : splitAtClose cs = some (nm, rest)) :
    cs.length = nm.length + rest.length + 1 := by
  induction cs generalizing nm rest with
  | nil => simp [splitAtClose] at h
  | cons c cs ih =>
    by_cases hc : c = closeBrace
    · simp [splitAtClose, hc] at h
      obtain ⟨h1, h2⟩ := h
      subst h1; subst h2
      simp
    · simp only [splitAtClose, if_neg hc] at h
      cases hsplit : splitAtClose cs with
      | none => rw [hsplit] at h; simp at h
      | some p =>
        obtain ⟨nm', rest'⟩ := p
        rw [hsplit] at h
        simp at h
        obtain ⟨h1, h2⟩ := h
        subst h1; subst h2
        have := ih hsplit
        simp [this]
        omega

theorem splitAtClose_not_mem {cs nm rest : List Char}
    (h : splitAtClose cs = some (nm, rest)) : closeBrace ∉ nm := by
  induction cs generalizing nm rest with
  | nil => simp [splitAtClose] at h
  | cons c cs ih =>
    by_cases hc : c = closeBrace
    · simp [splitAtClose, hc] at h
      obtain ⟨h1, _⟩ := h
      subst h1; simp
    · simp only [splitAtClose, if_neg hc] at h
      cases hsplit : splitAtClose cs with
      | none => rw [hsplit] at h; simp at h
      | some p =>
        obtain ⟨nm', rest'⟩ := p
        rw [hsplit] at h
        simp at h
        obtain ⟨h1, _⟩ := h
        subst h1
        intro hmem
        rcases List.mem_cons.mp hmem with h' | h'
        · exact hc h'.symm
        · exact ih hsplit h'

theorem splitAtClose_append {nm : List Char} (rest : List Char)
    (h : closeBrace ∉ nm) :
    splitAtClose (nm ++ closeBrace :: rest) = some (nm, rest) := by
  induction nm with
  | nil => simp [splitAtClose]
  | cons c nm ih =>
    have hc : c ≠ closeBrace := by
      intro hc; exact h (by simp [hc])
    have h' : closeBrace ∉ nm := by
      intro hm; exact h (by simp [hm])
    rw [List.cons_append]
    simp only [splitAtClose, if_neg hc, ih h', Option.map_some']

theorem lookupVar_mem {m : List (String × String)} {k v : String}
    (h : lookupVar m k = some v) : (k, v) ∈ m := by
  induction m with
  | nil => simp [lookupVar] at h
  | cons p m ih =>
    obtain ⟨k', v'⟩ := p
    by_cases hk : k' = k
    · simp [lookupVar, hk] at h
      subst hk; subst h
      simp
    · simp only [lookupVar, if_neg hk] at h
      exact List.mem_cons_of_mem _ (ih h)

/-- Running the scan with any sufficient fuel agrees with `substChars`. -/
theorem substFuel_norm (m : List (String × String)) :
    ∀ fuel : Nat, ∀ l : List Char, l.length ≤ fuel →
      substFuel m fuel l = substChars m l := by
  intro fuel
  induction fuel using Nat.strong_induction_on with
  | _ fuel ih =>
    intro l hl
    match fuel, l with
    | 0, l =>
      have : l = [] := List.length_eq_zero.mp (Nat.le_zero.mp hl)
      subst this; rfl
    | fuel + 1, [] => rfl
    | fuel + 1, c :: cs =>
      have hcs : cs.length ≤ fuel := by simpa using hl
      show substFuel m (fuel + 1) (c :: cs) = substFuel m (cs.length + 1) (c :: cs)
      by_cases hc : c = openBrace
      · cases hsplit : splitAtClose cs with
        | none => simp only [substFuel, if_pos hc, hsplit]
        | some p =>
          obtain ⟨nm, rest⟩ := p
          have hlen := splitAtClose_length hsplit
          have hrest : rest.length ≤ fuel := by omega
          have hrest' : rest.length ≤ cs.length := by omega
          simp only [substFuel, if_pos hc, hsplit]
          rw [ih fuel (Nat.lt_succ_self fuel) rest hrest,
            ih cs.length (by omega) rest hrest']
      · simp only [substFuel, if_neg hc]
        rw [ih fuel (Nat.lt_succ_self fuel) cs hcs]
        rfl

theorem substChars_nil (m : List (String × String)) : substChars m [] = [] := rfl

theorem substChars_cons {c : Char} (m : List (String × String)) (cs : List Char)
    (hc : c ≠ openBrace) : substChars m (c :: cs) = c :: substChars m cs := by
  show substFuel m (cs.length + 1) (c :: cs) = _
  simp only [substFuel, if_neg hc]
  rfl

theorem substChars_open_none (m : List (String × String)) {cs : List Char}
    (h : splitAtClose cs = none) :
    substChars m (openBrace :: cs) = openBrace :: cs := by
  show substFuel m (cs.length + 1) (openBrace :: cs) = _
  simp [substFuel, h]

theorem substChars_open_some (m : List (String × String))
    {cs nm rest : List Char}
    (h : splitAtClose cs = some (nm, rest)) :
    substChars m (openBrace :: cs) =
      placeholderResult m nm (substChars m rest) := by
  have hlen := splitAtClose_length h
  show substFuel m (cs.length + 1) (openBrace :: cs) = _
  simp only [substFuel, h]
  rw [if_pos trivial, substFuel_norm m cs.length rest (by omega)]

/-- A matched placeholder `{nm}` is replaced by the variable's value and the
scan continues after the closing delimiter. -/
theorem substChars_matched (m : List (String × String))
    {nm : List Char} (rest : List Char) {v : String}
    (hnm : closeBrace ∉ nm) (hv : lookupVar m (String.mk nm) = some v) :
    substChars m (openBrace :: (nm ++ closeBrace :: rest)) =
      v.data ++ substChars m rest := by
  rw [substChars_open_some m (splitAtClose_append rest hnm)]
  simp [placeholderResult, hv]

/-- An unmatched placeholder `{nm}` is kept verbatim, delimiters included, and
the scan continues after the closing delimiter. -/
theorem substChars_unmatched (m : List (String × String))
    {nm : List Char} (rest : List Char)
    (hnm : closeBrace ∉ nm) (hv : lookupVar m (String.mk nm) = none) :
    substChars m (openBrace :: (nm ++ closeBrace :: rest)) =
      openBrace :: (nm ++ closeBrace :: substChars m rest) := by
  rw [substChars_open_some m (splitAtClose_append rest hnm)]
  simp [placeholderResult, hv]

theorem substChars_append_no_open (m : List (String × String))
    {u : List Char} (w : List Char) (hu : ∀ c ∈ u, c ≠ openBrace) :
    substChars m (u ++ w) = u ++ substChars m w := by
  induction u with
  | nil => rfl
  | cons c u ih =>
    have hc : c ≠ openBrace := hu c (by simp)
    have hu' : ∀ c ∈ u, c ≠ openBrace := fun c hc' => hu c (by simp [hc'])
    rw [List.cons_append, substChars_cons m (u ++ w) hc, ih hu',
      List.cons_append]

theorem substChars_idem (m : List (String × String))
    (hm : ∀ p ∈ m, ∀ ch ∈ (Prod.snd p : String).data, ch ≠ openBrace) :
    ∀ n : Nat, ∀ l : List Char, l.length ≤ n →
      substChars m (substChars m l) = substChars m l := by
  intro n
  induction n with
  | zero =>
    intro l hl
    have : l = [] := List.length_eq_zero.mp (Nat.le_zero.mp hl)
    subst this; rfl
  | succ n ih =>
    intro l hl
    match l with
    | [] => rfl
    | c :: cs =>
      have hcs : cs.length ≤ n := by simpa using hl
      by_cases hc : c = openBrace
      · subst hc
        cases hsplit : splitAtClose cs with
        | none =>
          rw [substChars_open_none m hsplit, substChars_open_none m hsplit]
        | some p =>
          obtain ⟨nm, rest⟩ := p
          have hlen := splitAtClose_length hsplit
          have hrest : rest.length ≤ n := by omega
          cases hv : lookupVar m (String.mk nm) with
          | some v =>
            rw [substChars_open_some m hsplit]
            simp only [placeholderResult, hv]
            have hv' : ∀ ch ∈ v.data, ch ≠ openBrace :=
              hm (String.mk nm, v) (lookupVar_mem hv)
            rw [substChars_append_no_open m _ hv', ih rest hrest]
          | none =>
            rw [substChars_open_some m hsplit]
            simp only [placeholderResult, hv]
            have hnm := splitAtClose_not_mem hsplit
            rw [substChars_unmatched m _ hnm hv, ih rest hrest]
      · rw [substChars_cons m cs hc, substChars_cons m (substChars m cs) hc,
          ih cs hcs]

/-! ## Claims C1 and C8: the substitution engine -/

/-- C1: `substitute` replaces every placeholder whose name is a key of the
variable map (verbatim, case-sensitive lookup) with that key's value, leaves
every placeholder whose name is not a key unchanged including its delimiters,
passes other characters through, and in particular satisfies the two quoted
examples; it is total by construction (it returns a `String` for every
input). -/
theorem substitute_replaces_and_keeps_placeholders :
    (substitute "http://{baseUrl}/foobar" [("baseUrl", "example.com")] =
      "http://example.com/foobar")
    ∧ (substitute "{missing}/x" [] = "{missing}/x")
    ∧ (replaceVariables "http://{baseUrl}/foobar" [("baseUrl", "example.com")] =
      "http://example.com/foobar")
    ∧ (∀ (m : List (String × String)) (nm rest : List Char) (v : String),
        closeBrace ∉ nm → lookupVar m (String.mk nm) = some v →
        substChars m (openBrace :: (nm ++ closeBrace :: rest)) =
          v.data ++ substChars m rest)
    ∧ (∀ (m : List (String × String)) (nm rest : List Char),
        closeBrace ∉ nm → lookupVar m (String.mk nm) = none →
        substChars m (openBrace :: (nm ++ closeBrace :: rest)) =
          openBrace :: (nm ++ closeBrace :: substChars m rest))
    ∧ (∀ (m : List (String × String)) (c : Char) (cs : List Char),
        c ≠ openBrace → substChars m (c :: cs) = c :: substChars m cs) := by
  refine ⟨by decide, by decide, by decide, ?_, ?_, ?_⟩
  · intro m nm rest v hnm hv
    exact substChars_matched m rest hnm hv
  · intro m nm rest hnm hv
    exact substChars_unmatched m rest hnm hv
  · intro m c cs hc
    exact substChars_cons m cs hc

/-- Witness for C1: the general replacement rules applied at concrete inputs;
the map maps the name a to the value x, so the placeholder is replaced. -/
theorem substitute_replaces_witness :
    substChars [("a", "x")] (openBrace :: ("a".data ++ closeBrace :: "/y".data)) =
      "x".data ++ substChars [("a", "x")] "/y".data :=
  substitute_replaces_and_keeps_placeholders.2.2.2.1
    [("a", "x")] "a".data "/y".data "x" (by decide) (by decide)

/-- C8 fails as stated: when a variable's value itself contains a placeholder
that the same map resolves, a second pass substitutes further. Here the value
of a is the placeholder for b, so one pass yields that placeholder and a
second pass yields the value of b. -/
theorem substitute_not_idempotent :
    ¬ (substitute (substitute "{a}" [("a", "{b}"), ("b", "c")])
          [("a", "{b}"), ("b", "c")] =
        substitute "{a}" [("a", "{b}"), ("b", "c")]) := by
  decide

/-- C8 amended: `substitute` is idempotent with respect to a fixed variable
map whenever no variable value contains a placeholder delimiter character, so
one pass already yields a fully resolved string. -/
theorem substitute_idempotent_of_brace_free_values :
    ∀ (t : String) (m : List (String × String)),
      (∀ p ∈ m, ∀ ch ∈ (Prod.snd p : String).data,
        ch ≠ openBrace ∧ ch ≠ closeBrace) →
      substitute (substitute t m) m = substitute t m := by
  intro t m hm
  have hm' : ∀ p ∈ m, ∀ ch ∈ (Prod.snd p : String).data, ch ≠ openBrace :=
    fun p hp ch hch => (hm p hp ch hch).1
  show String.mk (substChars m (String.mk (substChars m t.data)).data) = _
  exact congrArg String.mk
    (substChars_idem m hm' t.data.length t.data (Nat.le_refl _))

/-- Witness for C8 amended: a map whose values are brace-free, applied to a
template with one matched and one unmatched placeholder. -/
theorem substitute_idempotent_witness :
    substitute (substitute "a {x} b {y}" [("x", "1")]) [("x", "1")] =
      substitute "a {x} b {y}" [("x", "1")] :=
  substitute_idempotent_of_brace_free_values "a {x} b {y}" [("x", "1")]
    (by decide)

/-! ## Auth configuration surface (RequestAuth.vue) -/

/-- The friendly-name lookup table `authTypeFriendlyString` from
RequestAuth.vue, in source order. -/
def authTypeFriendlyString : List (String × String) :=
  [("basic", "Basic Auth"), ("digest", "Digest Auth"), ("oauthOne", "OAuth 1.0"),
    ("oauthTwo", "OAuth 2.0"), ("bearer", "Bearer Token"), ("none", "None")]

/-- One entry of the auth-type selection dropdown in RequestAuth.vue. -/
structure AuthDropdownItem where
  text : String
  type : String
  disabled : Bool
deriving DecidableEq

/-- The dropdown entries `authDropdownItems` from RequestAuth.vue, in source
order; note that there is no digest entry and the oauthTwo entry is
disabled. -/
def authDropdownItems : List AuthDropdownItem :=
  [{ text := "Basic Auth", type := "basic", disabled := false },
    { text := "OAuth 2.0", type := "oauthTwo", disabled := true },
    { text := "Bearer Token", type := "bearer", disabled := false },
    { text := "None", type := "none", disabled := false }]

/-- The discriminants a user can actually select: the dropdown entries that
are not disabled. -/
def selectableAuthTypes : List String :=
  (authDropdownItems.filter (fun i => !i.disabled)).map (fun i => i.type)

/-- Fields of the basic variant, as bound by RequestAuth.vue
(`authState.basic.username`, `.password`, `.active`). -/
structure BasicAuth where
  username : String
  password : String
  active : Bool
deriving DecidableEq

/-- Fields of the digest variant, as bound by RequestAuth.vue
(`authState.digest.username`, `.password`, `.active`). -/
structure DigestAuth where
  username : String
  password : String
  active : Bool
deriving DecidableEq

/-- Fields of the bearer variant, as bound by RequestAuth.vue
(`authState.bearer.token`, `.active`). -/
structure BearerAuth where
  token : String
  active : Bool
deriving DecidableEq

/-- Fields of the oauthTwo variant. The seven string fields are the ones bound
by RequestAuth.vue; the `active` flag is modelled from the spec (§4.2 gives
every non-none variant an active toggle; the store itself is not under src/
and the rendered oauthTwo section exposes no checkbox for it). -/
structure OAuthTwoAuth where
  generatedToken : String
  discoveryURL : String
  authURL : String
  accessTokenURL : String
  clientID : String
  clientSecret : String
  scope : String
  active : Bool
deriving DecidableEq

/-- The auth editing state: a `type` discriminant selecting the current
variant, alongside the stored field sets of every variant (the store keeps
all of them; RequestAuth.vue only ever writes one field at a time through its
bindings). -/
structure AuthState where
  type : String
  basic : BasicAuth
  digest : DigestAuth
  bearer : BearerAuth
  oauthTwo : OAuthTwoAuth
deriving DecidableEq

/-- The field names the RequestAuth.vue template binds for each discriminant
value (the `v-model` targets of each section, in source order). -/
def renderedAuthFields : String → List String
  | "basic" => ["username", "password", "active"]
  | "digest" => ["username", "password", "active"]
  | "oauthTwo" =>
    ["generatedToken", "discoveryURL", "authURL", "accessTokenURL",
      "clientID", "clientSecret", "scope"]
  | "bearer" => ["token", "active"]
  | _ => []

/-- The dropdown's `v-model="authState.type"` writes only the `type` field of
the auth state; no other field is touched. -/
def selectAuthType (s : AuthState) (t : String) : AuthState :=
  { s with type := t }

/-! ## Claim C5: the enumerated auth discriminant surface -/

/-- C5 fails as stated: digest does not occur in the selection dropdown at
all, and the oauthTwo entry is disabled, so neither can be selected as the
current auth type. -/
theorem auth_dropdown_missing_digest :
    "digest" ∉ selectableAuthTypes
    ∧ "oauthTwo" ∉ selectableAuthTypes
    ∧ "digest" ∉ authDropdownItems.map (fun i => i.type) := by
  decide

/-- C5 amended: the friendly-name table enumerates all five discriminants
none|basic|digest|bearer|oauthTwo (plus oauthOne), and each variant has its
own rendered field set, with basic, digest and bearer each carrying an
independently toggled active flag; but the selection dropdown exposes only
basic, oauthTwo, bearer and none, with oauthTwo disabled, so only basic,
bearer and none can be selected, and the rendered oauthTwo section carries no
active toggle. -/
theorem auth_surface_enumeration :
    authDropdownItems.map (fun i => i.type) = ["basic", "oauthTwo", "bearer", "none"]
    ∧ selectableAuthTypes = ["basic", "bearer", "none"]
    ∧ lookupVar authTypeFriendlyString "none" = some "None"
    ∧ lookupVar authTypeFriendlyString "basic" = some "Basic Auth"
    ∧ lookupVar authTypeFriendlyString "digest" = some "Digest Auth"
    ∧ lookupVar authTypeFriendlyString "bearer" = some "Bearer Token"
    ∧ lookupVar authTypeFriendlyString "oauthTwo" = some "OAuth 2.0"
    ∧ "active" ∈ renderedAuthFields "basic"
    ∧ "active" ∈ renderedAuthFields "digest"
    ∧ "active" ∈ renderedAuthFields "bearer"
    ∧ "active" ∉ renderedAuthFields "oauthTwo"
    ∧ "active" ∉ renderedAuthFields "none" := by
  decide

/-! ## Claim C6: switching the discriminant retains variant fields -/

/-- C6: selecting a discriminant mutates only the `type` field; every
variant's stored field values are retained, so switching bearer → basic →
bearer leaves the stored bearer token exactly as it was. -/
theorem selectAuthType_frame :
    (∀ (s : AuthState) (t : String),
      (selectAuthType s t).type = t
      ∧ (selectAuthType s t).basic = s.basic
      ∧ (selectAuthType s t).digest = s.digest
      ∧ (selectAuthType s t).bearer = s.bearer
      ∧ (selectAuthType s t).oauthTwo = s.oauthTwo)
    ∧ (∀ s : AuthState,
      (selectAuthType (selectAuthType s "basic") "bearer").bearer.token =
        s.bearer.token) :=
  ⟨fun _ _ => ⟨rfl, rfl, rfl, rfl, rfl⟩, fun _ => rfl⟩

/-! ## Auth Resolver (spec-modelled) and Claim C7 -/

/-- UTF-8 encoding of one character, as the list of its byte values. -/
def utf8Bytes (c : Char) : List Nat :=
  let n := c.toNat
  if n < 128 then [n]
  else if n < 2048 then [192 + n / 64, 128 + n % 64]
  else if n < 65536 then [224 + n / 4096, 128 + (n / 64) % 64, 128 + n % 64]
  else [240 + n / 262144, 128 + (n / 4096) % 64, 128 + (n / 64) % 64,
    128 + n % 64]

/-- UTF-8 bytes of a string. -/
def strBytes (s : String) : List Nat := (s.data.map utf8Bytes).flatten

/-- The base64 alphabet. -/
def base64Alphabet : List Char :=
  "ABCDEFGHIJKLMNOPQRSTUVWXYZabcdefghijklmnopqrstuvwxyz0123456789+/".data

/-- Character of the base64 alphabet at a sextet value. -/
def b64Char (n : Nat) : Char := base64Alphabet.getD n (Char.ofNat 65)

/-- Standard base64 encoding of a byte list, with padding. -/
def b64Encode : List Nat → List Char
  | [] => []
  | [a] => [b64Char (a / 4), b64Char ((a % 4) * 16), '=', '=']
  | [a, b] => [b64Char (a / 4), b64Char ((a % 4) * 16 + b / 16),
    b64Char ((b % 16) * 4), '=']
  | a :: b :: c :: rest =>
    b64Char (a / 4) :: b64Char ((a % 4) * 16 + b / 16) ::
      b64Char ((b % 16) * 4 + c / 64) :: b64Char (c % 64) :: b64Encode rest

/-- Value of the Authorization header for basic auth (§4.2):
`Basic base64(username:password)`. -/
def basicAuthValue (username password : String) : String :=
  "Basic " ++ String.mk (b64Encode (strBytes (username ++ ":" ++ password)))

/-- Modelled from the spec: the Auth Resolver of §4.2 (its implementation is
not under src/; the per-variant mutation table is the authority). The header
mutations produced from the current auth state: basic and bearer/oauthTwo add
an Authorization header when their variant is current and active; none adds
nothing; digest adds nothing at assembly time, since its first send is
unauthenticated (see the digest flow below). -/
def authHeaders (s : AuthState) : List (String × String) :=
  if s.type = "basic" then
    if s.basic.active then
      [("Authorization", basicAuthValue s.basic.username s.basic.password)]
    else []
  else if s.type = "bearer" then
    if s.bearer.active then
      [("Authorization", "Bearer " ++ s.bearer.token)]
    else []
  else if s.type = "oauthTwo" then
    if s.oauthTwo.active then
      [("Authorization", "Bearer " ++ s.oauthTwo.generatedToken)]
    else []
  else []

/-- Modelled from the spec: step 5 of §4.3 — the resolver's header mutations
are merged after all templated headers. -/
def assembleHeaders (templated : List (String × String)) (s : AuthState) :
    List (String × String) :=
  templated ++ authHeaders s

/-- C7: with the bearer variant current and active, the assembled headers
contain `Authorization: Bearer <token>` (in particular `Bearer abc` for token
abc); with the bearer variant current but inactive, no Authorization header
is contributed (so none occurs when the templated headers carry none). -/
theorem bearer_auth_header (base : List (String × String)) (s : AuthState)
    (h : s.type = "bearer") :
    (s.bearer.active = true →
      ("Authorization", "Bearer " ++ s.bearer.token) ∈ assembleHeaders base s)
    ∧ (s.bearer.active = true → s.bearer.token = "abc" →
      ("Authorization", "Bearer abc") ∈ assembleHeaders base s)
    ∧ (s.bearer.active = false → (∀ p ∈ base, p.1 ≠ "Authorization") →
      ∀ v, ("Authorization", v) ∉ assembleHeaders base s) := by
  have hb1 : ¬ (("bearer" : String) = "basic") := by decide
  refine ⟨?_, ?_, ?_⟩
  · intro hact
    simp [assembleHeaders, authHeaders, h, hb1, hact]
  · intro hact htok
    simp [assembleHeaders, authHeaders, h, hb1, hact, htok]
  · intro hact hbase v hmem
    simp [assembleHeaders, authHeaders, h, hb1, hact] at hmem
    exact hbase _ hmem rfl

/-- Witness for C7: a concrete bearer state with token abc, active, and no
templated headers. -/
theorem bearer_auth_header_witness :
    ("Authorization", "Bearer abc") ∈ assembleHeaders []
      { type := "bearer"
        basic := { username := "", password := "", active := false }
        digest := { username := "", password := "", active := false }
        bearer := { token := "abc", active := true }
        oauthTwo := { generatedToken := "", discoveryURL := "", authURL := ""
                      accessTokenURL := "", clientID := "", clientSecret := ""
                      scope := "", active := false } } :=
  (bearer_auth_header []
    { type := "bearer"
      basic := { username := "", password := "", active := false }
      digest := { username := "", password := "", active := false }
      bearer := { token := "abc", active := true }
      oauthTwo := { generatedToken := "", discoveryURL := "", authURL := ""
                    accessTokenURL := "", clientID := "", clientSecret := ""
                    scope := "", active := false } } rfl).2.1 rfl rfl

/-! ## MD5 (for the digest handshake), over Nat with explicit mod 2^32 -/

/-- Two to the 32nd, the word modulus. -/
def w32 : Nat := 4294967296

/-- The 32-bit all-ones mask. -/
def mask32 : Nat := 4294967295

/-- Rotate a 32-bit word left by `s` bits. -/
def rotl32 (x s : Nat) : Nat :=
  (((x % w32) * 2 ^ s) % w32) + ((x % w32) / 2 ^ (32 - s))

/-- The 64 MD5 sine-derived round constants. -/
def md5K : List Nat :=
  [0xd76aa478, 0xe8c7b756, 0x242070db, 0xc1bdceee,
   0xf57c0faf, 0x4787c62a, 0xa8304613, 0xfd469501,
   0x698098d8, 0x8b44f7af, 0xffff5bb1, 0x895cd7be,
   0x6b901122, 0xfd987193, 0xa679438e, 0x49b40821,
   0xf61e2562, 0xc040b340, 0x265e5a51, 0xe9b6c7aa,
   0xd62f105d, 0x02441453, 0xd8a1e681, 0xe7d3fbc8,
   0x21e1cde6, 0xc33707d6, 0xf4d50d87, 0x455a14ed,
   0xa9e3e905, 0xfcefa3f8, 0x676f02d9, 0x8d2a4c8a,
   0xfffa3942, 0x8771f681, 0x6d9d6122, 0xfde5380c,
   0xa4beea44, 0x4bdecfa9, 0xf6bb4b60, 0xbebfbc70,
   0x289b7ec6, 0xeaa127fa, 0xd4ef3085, 0x04881d05,
   0xd9d4d039, 0xe6db99e5, 0x1fa27cf8, 0xc4ac5665,
   0xf4292244, 0x432aff97, 0xab9423a7, 0xfc93a039,
   0x655b59c3, 0x8f0ccc92, 0xffeff47d, 0x85845dd1,
   0x6fa87e4f, 0xfe2ce6e0, 0xa3014314, 0x4e0811a1,
   0xf7537e82, 0xbd3af235, 0x2ad7d2bb, 0xeb86d391]

/-- The 64 MD5 per-round left-rotation amounts. -/
def md5S : List Nat :=
  [7, 12, 17, 22, 7, 12, 17, 22, 7, 12, 17, 22, 7, 12, 17, 22,
   5, 9, 14, 20, 5, 9, 14, 20, 5, 9, 14, 20, 5, 9, 14, 20,
   4, 11, 16, 23, 4, 11, 16, 23, 4, 11, 16, 23, 4, 11, 16, 23,
   6, 10, 15, 21, 6, 10, 15, 21, 6, 10, 15, 21, 6, 10, 15, 21]

/-- Little-endian byte decomposition of a number, `k` bytes wide. -/
def leBytes : Nat → Nat → List Nat
  | 0, _ => []
  | k + 1, n => (n % 256) :: leBytes k (n / 256)

/-- MD5 padding: a 0x80 byte, zeros to 56 mod 64, then the bit length as
eight little-endian bytes. -/
def md5Pad (msg : List Nat) : List Nat :=
  let len := msg.length
  let k := (64 + 56 - ((len + 1) % 64)) % 64
  msg ++ [128] ++ List.replicate k 0 ++ leBytes 8 ((len * 8) % 2 ^ 64)

/-- Little-endian 32-bit word `i` of a 64-byte block. -/
def md5Word (blk : List Nat) (i : Nat) : Nat :=
  blk.getD (4 * i) 0 + 256 * blk.getD (4 * i + 1) 0 +
    65536 * blk.getD (4 * i + 2) 0 + 16777216 * blk.getD (4 * i + 3) 0

/-- The MD5 nonlinear function of round `i`. -/
def md5F (i b c d : Nat) : Nat :=
  if i < 16 then (b &&& c) ||| ((mask32 ^^^ b) &&& d)
  else if i < 32 then (b &&& d) ||| (c &&& (mask32 ^^^ d))
  else if i < 48 then b ^^^ c ^^^ d
  else c ^^^ (b ||| (mask32 ^^^ d))

/-- The message-word index schedule of round `i`. -/
def md5G (i : Nat) : Nat :=
  if i < 16 then i
  else if i < 32 then (5 * i + 1) % 16
  else if i < 48 then (3 * i + 5) % 16
  else (7 * i) % 16

/-- One MD5 round on the state quadruple. -/
def md5Step (blk : List Nat) (st : Nat × Nat × Nat × Nat) (i : Nat) :
    Nat × Nat × Nat × Nat :=
  let (a, b, c, d) := st
  let tmp := (a + md5F i b c d + md5K.getD i 0 + md5Word blk (md5G i)) % w32
  (d, (b + rotl32 tmp (md5S.getD i 0)) % w32, b, c)

/-- Process one 64-byte block: 64 rounds, then add the incoming state. -/
def md5Block (st : Nat × Nat × Nat × Nat) (blk : List Nat) :
    Nat × Nat × Nat × Nat :=
  let (a0, b0, c0, d0) := st
  let (a, b, c, d) := (List.range 64).foldl (md5Step blk) st
  ((a0 + a) % w32, (b0 + b) % w32, (c0 + c) % w32, (d0 + d) % w32)

/-- Split a byte list into 64-byte chunks (fuel-indexed structural
recursion; the fuel is instantiated with the list length, which suffices
since every step consumes at least one element). -/
def chunk64 : Nat → List Nat → List (List Nat)
  | 0, _ => []
  | _ + 1, [] => []
  | fuel + 1, x :: xs => (x :: xs).take 64 :: chunk64 fuel ((x :: xs).drop 64)

/-- Lowercase hexadecimal digit. -/
def hexDigit (n : Nat) : Char :=
  if n < 10 then Char.ofNat (48 + n) else Char.ofNat (87 + n)

/-- Two lowercase hex characters of a byte. -/
def byteHex (b : Nat) : List Char := [hexDigit (b / 16), hexDigit (b % 16)]

/-- The lowercase hexadecimal MD5 digest of a string's UTF-8 bytes. -/
def md5Hex (s : String) : String :=
  let msg := md5Pad (strBytes s)
  let st := (chunk64 msg.length msg).foldl md5Block
    (0x67452301, 0xefcdab89, 0x98badcfe, 0x10325476)
  String.mk
    (((leBytes 4 st.1 ++ leBytes 4 st.2.1 ++ leBytes 4 st.2.2.1 ++
      leBytes 4 st.2.2.2).map byteHex).flatten)

/-! ## Request drafts, proxy responses and the digest handshake -/

/-- An immutable draft request handed to the Proxy Execution Client (§3). -/
structure RequestDraft where
  method : String
  url : String
  headers : List (String × String)
  body : Option String
deriving DecidableEq

/-- A normalized response returned by the proxy (§3). -/
structure ProxyResponse where
  status : Nat
  statusText : String
  headers : List (String × String)
  body : String
  timingMs : Nat
deriving DecidableEq

/-- The double-quote character. -/
def quoteChar : Char := Char.ofNat 34

/-- Characters strictly before the first double quote, or `none` when the
quote never closes. -/
def takeUntilQuote : List Char → Option (List Char)
  | [] => none
  | c :: cs =>
    if c = quoteChar then some []
    else (takeUntilQuote cs).map (fun l => c :: l)

/-- Whether `pat` occurs at the head of the second list. -/
def leadsWith : List Char → List Char → Bool
  | [], _ => true
  | _ :: _, [] => false
  | p :: ps, c :: cs => p == c && leadsWith ps cs

/-- The suffix after the first occurrence of `pat`, or `none`. -/
def findAfter (pat : List Char) : List Char → Option (List Char)
  | [] => none
  | c :: cs =>
    if leadsWith pat (c :: cs) then some ((c :: cs).drop pat.length)
    else findAfter pat cs

/-- Modelled from the spec: extraction of one quoted challenge parameter
(`key="value"`) from a challenge header value (the Auth Resolver is not under
src/; §4.2 names the realm and nonce parameters). -/
def challengeParam (key : String) (v : String) : Option String :=
  match findAfter (key.data ++ [Char.ofNat 61, quoteChar]) v.data with
  | none => none
  | some rest => (takeUntilQuote rest).map String.mk

/-- Modelled from the spec: a well-formed challenge is a WWW-Authenticate
header carrying both a realm and a nonce parameter; returns them, or `none`
when the challenge is absent or malformed. -/
def challengeOf (r : ProxyResponse) : Option (String × String) :=
  match lookupVar r.headers "WWW-Authenticate" with
  | none => none
  | some v =>
    match challengeParam "realm" v, challengeParam "nonce" v with
    | some realm, some nonce => some (realm, nonce)
    | _, _ => none

/-- The digest Authorization header value, computed per standard digest rules
from username, password, method, URI, realm and nonce (§4.2):
MD5(MD5(user:realm:pass):nonce:MD5(method:uri)). -/
def digestAuthValue (username password method uri realm nonce : String) :
    String :=
  let ha1 := md5Hex (username ++ ":" ++ realm ++ ":" ++ password)
  let ha2 := md5Hex (method ++ ":" ++ uri)
  let resp := md5Hex (ha1 ++ ":" ++ nonce ++ ":" ++ ha2)
  "Digest username=\"" ++ username ++ "\", realm=\"" ++ realm ++
    "\", nonce=\"" ++ nonce ++ "\", uri=\"" ++ uri ++
    "\", response=\"" ++ resp ++ "\""

/-- The retried request of the digest handshake: the identical request with
the computed Authorization header attached. -/
def digestRetryRequest (auth : DigestAuth) (req : RequestDraft)
    (realm nonce : String) : RequestDraft :=
  { req with
    headers := req.headers ++
      [("Authorization",
        digestAuthValue auth.username auth.password req.method req.url
          realm nonce)] }

/-- Outcome of the digest flow: the surfaced response together with the
requests that were sent, in order. -/
structure DigestFlowResult where
  finalResponse : ProxyResponse
  sends : List RequestDraft

/-- Modelled from the spec: the two-phase digest handshake of §4.2 (no
resolver implementation is under src/). The request is first sent
unauthenticated; on a 401 carrying a well-formed challenge, the identical
request is resent once with the computed Authorization header and that second
response is surfaced whatever its status (retries capped at one); on a 401
without a well-formed challenge, the original 401 is surfaced with no
retry. -/
def digestFlow (send : RequestDraft → ProxyResponse) (auth : DigestAuth)
    (req : RequestDraft) : DigestFlowResult :=
  let r1 := send req
  if r1.status = 401 then
    match challengeOf r1 with
    | some (realm, nonce) =>
      let req2 := digestRetryRequest auth req realm nonce
      { finalResponse := send req2, sends := [req, req2] }
    | none => { finalResponse := r1, sends := [req] }
  else { finalResponse := r1, sends := [req] }

/-! ## Claim C2: exactly one digest retry -/

/-- C2: when the first response is a 401 carrying a well-formed challenge,
exactly one retry is issued — the identical request (same method, url and
body, headers extended with the computed `Authorization: Digest ...` header)
— and the second response is surfaced as is, so a second 401 triggers no
further retry; when the challenge is absent or malformed the original 401 is
surfaced with no retry; in every case at most two requests are ever sent. -/
theorem digest_flow_single_retry (send : RequestDraft → ProxyResponse)
    (auth : DigestAuth) (req : RequestDraft) :
    (∀ realm nonce, (send req).status = 401 →
      challengeOf (send req) = some (realm, nonce) →
      (digestFlow send auth req).sends =
        [req, digestRetryRequest auth req realm nonce]
      ∧ (digestRetryRequest auth req realm nonce).method = req.method
      ∧ (digestRetryRequest auth req realm nonce).url = req.url
      ∧ (digestRetryRequest auth req realm nonce).body = req.body
      ∧ (digestRetryRequest auth req realm nonce).headers =
        req.headers ++
          [("Authorization",
            digestAuthValue auth.username auth.password req.method req.url
              realm nonce)]
      ∧ (digestFlow send auth req).finalResponse =
        send (digestRetryRequest auth req realm nonce))
    ∧ ((send req).status = 401 → challengeOf (send req) = none →
      (digestFlow send auth req).sends = [req]
      ∧ (digestFlow send auth req).finalResponse = send req)
    ∧ ((send req).status ≠ 401 →
      (digestFlow send auth req).sends = [req]
      ∧ (digestFlow send auth req).finalResponse = send req)
    ∧ (digestFlow send auth req).sends.length ≤ 2 := by
  refine ⟨?_, ?_, ?_, ?_⟩
  · intro realm nonce h1 h2
    simp [digestFlow, h1, h2, digestRetryRequest]
  · intro h1 h2
    simp [digestFlow, h1, h2]
  · intro h1
    simp [digestFlow, h1]
  · by_cases h1 : (send req).status = 401
    · cases h2 : challengeOf (send req) with
      | none => simp [digestFlow, h1, h2]
      | some p =>
        obtain ⟨realm, nonce⟩ := p
        simp [digestFlow, h1, h2]
    · simp [digestFlow, h1]

/-- A concrete unauthenticated request for the digest-flow witness. -/
def c2Request : RequestDraft :=
  { method := "GET", url := "/x", headers := [], body := none }

/-- A concrete 401 response with a well-formed digest challenge. -/
def c2Challenge401 : ProxyResponse :=
  { status := 401, statusText := "Unauthorized"
    headers := [("WWW-Authenticate", "Digest realm=\"r1\", nonce=\"n1\"")]
    body := "", timingMs := 1 }

/-- A server that answers 401 with a challenge to every request — also to the
authenticated retry, exercising the retry cap. -/
def c2Send : RequestDraft → ProxyResponse :=
  fun r =>
    if r.headers = [] then c2Challenge401
    else { c2Challenge401 with statusText := "Still unauthorized" }

/-- Concrete digest credentials for the witness. -/
def c2Auth : DigestAuth := { username := "u", password := "p", active := true }

/-- Witness for C2: against a server that keeps answering 401, the flow sends
exactly the original request and one computed retry. -/
theorem digest_flow_single_retry_witness :
    (digestFlow c2Send c2Auth c2Request).sends =
      [c2Request, digestRetryRequest c2Auth c2Request "r1" "n1"]
    ∧ (digestRetryRequest c2Auth c2Request "r1" "n1").method = c2Request.method
    ∧ (digestRetryRequest c2Auth c2Request "r1" "n1").url = c2Request.url
    ∧ (digestRetryRequest c2Auth c2Request "r1" "n1").body = c2Request.body
    ∧ (digestRetryRequest c2Auth c2Request "r1" "n1").headers =
      c2Request.headers ++
        [("Authorization",
          digestAuthValue c2Auth.username c2Auth.password c2Request.method
            c2Request.url "r1" "n1")]
    ∧ (digestFlow c2Send c2Auth c2Request).finalResponse =
      c2Send (digestRetryRequest c2Auth c2Request "r1" "n1") :=
  (digest_flow_single_retry c2Send c2Auth c2Request).1 "r1" "n1"
    (by decide) (by decide)

/-! ## Proxy Execution Client and Response/History Store (spec-modelled) -/

/-- Failure kinds of the error taxonomy (§7). -/
inductive FailureKind
  | Timeout
  | NetworkFailure
  | CrossOriginBlocked
  | Cancelled
deriving DecidableEq

/-- Outcome of executing a draft through the proxy: a received response of
any status, or a failure kind. -/
inductive ExecOutcome
  | success (response : ProxyResponse)
  | failure (kind : FailureKind)
deriving DecidableEq

/-- What the transport does for one round trip: delivers a response after
some elapsed time, never responds, or is unreachable (connection refused,
DNS failure). -/
inductive TransportEvent
  | delivered (response : ProxyResponse) (elapsedMs : Nat)
  | noResponse
  | unreachable
deriving DecidableEq

/-- Modelled from the spec: `execute` of §4.4 (the Proxy Execution Client is
not under src/). Any response received within the bound is a successful
`ProxyResponse`, whatever its status; exceeding `timeoutMs` (a response
arriving too late, or none at all) is a `Timeout` failure; an unreachable
proxy is a `NetworkFailure`. -/
def executeProxy (ev : TransportEvent) (timeoutMs : Nat) : ExecOutcome :=
  match ev with
  | .delivered r t => if timeoutMs < t then .failure .Timeout else .success r
  | .noResponse => .failure .Timeout
  | .unreachable => .failure .NetworkFailure

/-- State of a history record: pending, or terminal with its outcome. -/
inductive RecordState
  | pending
  | terminal (out : ExecOutcome)
deriving DecidableEq

/-- One executed-request record of the history store (§3). -/
structure ExecutedRequestRecord where
  id : Nat
  request : RequestDraft
  state : RecordState
deriving DecidableEq

/-- Modelled from the spec: the Response/History Store of §4.5 (not under
src/) — an append-only record list with monotonically assigned ids. -/
structure HistoryStore where
  records : List ExecutedRequestRecord
  nextId : Nat
deriving DecidableEq

/-- The pending record created on send. -/
def freshRecord (st : HistoryStore) (d : RequestDraft) : ExecutedRequestRecord :=
  { id := st.nextId, request := d, state := .pending }

/-- `record(draft)` of §4.5: append a pending record, return its id. -/
def recordDraft (st : HistoryStore) (d : RequestDraft) : HistoryStore × Nat :=
  ({ records := st.records ++ [freshRecord st d], nextId := st.nextId + 1 },
    st.nextId)

/-- `get(id)` of §4.5: direct lookup by id. -/
def getRecord (st : HistoryStore) (i : Nat) : Option ExecutedRequestRecord :=
  st.records.find? (fun r => r.id == i)

/-- Store errors of §4.5/§7. -/
inductive StoreError
  | InvalidState
  | NotFound
deriving DecidableEq

/-- The store after marking record `i` terminal with outcome `out`. -/
def completedStore (st : HistoryStore) (i : Nat) (out : ExecOutcome) :
    HistoryStore :=
  { st with
    records := st.records.map
      (fun q => if q.id == i then { q with state := .terminal out } else q) }

/-- `complete(id, response|failure)` of §4.5: transition the record to its
terminal state; a second completion is a caller contract violation
(`InvalidState`), an unknown id is `NotFound`. -/
def complete (st : HistoryStore) (i : Nat) (out : ExecOutcome) :
    Except StoreError HistoryStore :=
  match getRecord st i with
  | none => .error .NotFound
  | some r =>
    match r.state with
    | .pending => .ok (completedStore st i out)
    | .terminal _ => .error .InvalidState

/-- One full send: record a pending entry, execute, complete the entry. -/
def executeAndRecord (st : HistoryStore) (d : RequestDraft)
    (ev : TransportEvent) (timeoutMs : Nat) : HistoryStore × Nat :=
  let p := recordDraft st d
  match complete p.1 p.2 (executeProxy ev timeoutMs) with
  | .ok st2 => (st2, p.2)
  | .error _ => (p.1, p.2)

theorem find?_map_complete {l : List ExecutedRequestRecord} {i : Nat}
    {r : ExecutedRequestRecord} (out : ExecOutcome)
    (h : l.find? (fun q => q.id == i) = some r) :
    (l.map (fun q => if q.id == i then { q with state := .terminal out }
      else q)).find? (fun q => q.id == i) =
      some { r with state := .terminal out } := by
  induction l with
  | nil => simp at h
  | cons q l ih =>
    by_cases hq : (q.id == i) = true
    · rw [List.find?_cons_of_pos (p := fun q : ExecutedRequestRecord => q.id == i) l hq] at h
      injection h with h
      subst h
      simp only [List.map_cons, if_pos hq]
      exact List.find?_cons_of_pos (p := fun q : ExecutedRequestRecord => q.id == i) _ hq
    · rw [List.find?_cons_of_neg (p := fun q : ExecutedRequestRecord => q.id == i) l hq] at h
      simp only [List.map_cons, if_neg hq]
      rw [List.find?_cons_of_neg (p := fun q : ExecutedRequestRecord => q.id == i) _ hq]
      exact ih h

theorem getRecord_completedStore {st : HistoryStore} {i : Nat}
    {r : ExecutedRequestRecord} (out : ExecOutcome)
    (h : getRecord st i = some r) :
    getRecord (completedStore st i out) i =
      some { r with state := .terminal out } :=
  find?_map_complete out h

theorem complete_pending {st : HistoryStore} {i : Nat}
    {r : ExecutedRequestRecord} (out : ExecOutcome)
    (hget : getRecord st i = some r) (hpend : r.state = .pending) :
    complete st i out = .ok (completedStore st i out) := by
  simp [complete, hget, hpend]

theorem complete_terminal {st : HistoryStore} {i : Nat}
    {r : ExecutedRequestRecord} {o : ExecOutcome} (out : ExecOutcome)
    (hget : getRecord st i = some r) (hterm : r.state = .terminal o) :
    complete st i out = .error .InvalidState := by
  simp [complete, hget, hterm]

theorem find?_append_last {α : Type} (p : α → Bool) (l : List α) (x : α)
    (hl : ∀ a ∈ l, p a = false) (hx : p x = true) :
    (l ++ [x]).find? p = some x := by
  induction l with
  | nil => simp [hx]
  | cons a l ih =>
    have ha : ¬ (p a = true) := by simp [hl a (by simp)]
    rw [List.cons_append, List.find?_cons_of_neg (p := p) (l ++ [x]) ha]
    exact ih (fun a ha => hl a (by simp [ha]))

theorem getRecord_fresh (st : HistoryStore) (d : RequestDraft)
    (hinv : ∀ q ∈ st.records, q.id < st.nextId) :
    getRecord (recordDraft st d).1 st.nextId = some (freshRecord st d) := by
  apply find?_append_last
  · intro a ha
    have := hinv a ha
    simp
    omega
  · simp [freshRecord]

/-! ## Claim C4: complete transitions a record exactly once -/

/-- C4: completing a pending record succeeds and makes it terminal; a second
`complete` on the same id fails with `InvalidState` (and, returning an error,
produces no new store, so the record stays exactly as the first completion
left it). -/
theorem complete_exactly_once (st : HistoryStore) (i : Nat)
    (out out' : ExecOutcome) (r : ExecutedRequestRecord)
    (hget : getRecord st i = some r) (hpend : r.state = .pending) :
    ∃ st' : HistoryStore,
      complete st i out = .ok st'
      ∧ getRecord st' i = some { r with state := .terminal out }
      ∧ complete st' i out' = .error .InvalidState := by
  refine ⟨completedStore st i out, complete_pending out hget hpend, ?_, ?_⟩
  · exact getRecord_completedStore out hget
  · exact complete_terminal out' (getRecord_completedStore out hget) rfl

/-- A concrete draft for store witnesses. -/
def sampleDraft : RequestDraft :=
  { method := "GET", url := "http://example.com/a", headers := [], body := none }

/-- A concrete 404 response. -/
def sample404 : ProxyResponse :=
  { status := 404, statusText := "Not Found", headers := [], body := ""
    timingMs := 5 }

/-- A concrete store holding one pending record with id 0. -/
def sampleStore : HistoryStore :=
  { records := [{ id := 0, request := sampleDraft, state := .pending }]
    nextId := 1 }

/-- Witness for C4: the double-completion contract at a concrete store. -/
theorem complete_exactly_once_witness :
    ∃ st' : HistoryStore,
      complete sampleStore 0 (.success sample404) = .ok st'
      ∧ getRecord st' 0 =
        some { id := 0, request := sampleDraft
               state := .terminal (.success sample404) }
      ∧ complete st' 0 (.failure .Cancelled) = .error .InvalidState :=
  complete_exactly_once sampleStore 0 (.success sample404)
    (.failure .Cancelled) { id := 0, request := sampleDraft, state := .pending }
    rfl rfl

/-! ## Claim C3: any received status succeeds; timeout is a distinct failure -/

/-- C3: a delivered response within the bound is a successful
`ProxyResponse` whatever its status, and completing the record makes it
terminal with a response; exceeding the bound (late or absent response)
yields the `Timeout` failure kind, distinct from `NetworkFailure` (proxy
unreachable), and the record is terminal with that failure. -/
theorem proxy_status_not_failure_timeout_distinct :
    (∀ (r : ProxyResponse) (t timeout : Nat), t ≤ timeout →
      executeProxy (.delivered r t) timeout = .success r)
    ∧ (∀ (r : ProxyResponse) (t timeout : Nat), timeout < t →
      executeProxy (.delivered r t) timeout = .failure .Timeout)
    ∧ (∀ timeout : Nat, executeProxy .noResponse timeout = .failure .Timeout)
    ∧ (∀ timeout : Nat,
      executeProxy .unreachable timeout = .failure .NetworkFailure)
    ∧ FailureKind.Timeout ≠ FailureKind.NetworkFailure
    ∧ (∀ (st : HistoryStore) (d : RequestDraft) (r : ProxyResponse)
        (t timeout : Nat),
        (∀ q ∈ st.records, q.id < st.nextId) → t ≤ timeout →
        getRecord (executeAndRecord st d (.delivered r t) timeout).1
            (executeAndRecord st d (.delivered r t) timeout).2 =
          some { id := st.nextId, request := d
                 state := .terminal (.success r) })
    ∧ (∀ (st : HistoryStore) (d : RequestDraft) (timeout : Nat),
        (∀ q ∈ st.records, q.id < st.nextId) →
        getRecord (executeAndRecord st d .noResponse timeout).1
            (executeAndRecord st d .noResponse timeout).2 =
          some { id := st.nextId, request := d
                 state := .terminal (.failure .Timeout) }) := by
  refine ⟨?_, ?_, ?_, ?_, ?_, ?_, ?_⟩
  · intro r t timeout h
    simp [executeProxy, Nat.not_lt.mpr h]
  · intro r t timeout h
    simp [executeProxy, h]
  · intro timeout; rfl
  · intro timeout; rfl
  · intro h; cases h
  · intro st d r t timeout hinv h
    have hfresh := getRecord_fresh st d hinv
    have hout : executeProxy (.delivered r t) timeout = .success r := by
      simp [executeProxy, Nat.not_lt.mpr h]
    have hok : complete (recordDraft st d).1 (recordDraft st d).2
        (.success r) =
        .ok (completedStore (recordDraft st d).1 (recordDraft st d).2
          (.success r)) :=
      complete_pending (.success r) hfresh rfl
    have hterm : getRecord (completedStore (recordDraft st d).1
        (recordDraft st d).2 (.success r)) (recordDraft st d).2 =
        some { freshRecord st d with state := .terminal (.success r) } :=
      getRecord_completedStore (.success r) hfresh
    simp only [executeAndRecord, hout, hok]
    exact hterm
  · intro st d timeout hinv
    have hfresh := getRecord_fresh st d hinv
    have hok : complete (recordDraft st d).1 (recordDraft st d).2
        (.failure .Timeout) =
        .ok (completedStore (recordDraft st d).1 (recordDraft st d).2
          (.failure .Timeout)) :=
      complete_pending (.failure .Timeout) hfresh rfl
    have hterm : getRecord (completedStore (recordDraft st d).1
        (recordDraft st d).2 (.failure .Timeout)) (recordDraft st d).2 =
        some { freshRecord st d with state := .terminal (.failure .Timeout) } :=
      getRecord_completedStore (.failure .Timeout) hfresh
    simp only [executeAndRecord, executeProxy, hok]
    exact hterm

/-- Witness for C3: an empty store, a 404 delivered within a 10 ms bound, and
a proxy that never responds. -/
theorem proxy_status_not_failure_witness :
    getRecord (executeAndRecord { records := [], nextId := 0 } sampleDraft
        (.delivered sample404 5) 10).1
      (executeAndRecord { records := [], nextId := 0 } sampleDraft
        (.delivered sample404 5) 10).2 =
      some { id := 0, request := sampleDraft
             state := .terminal (.success sample404) } :=
  proxy_status_not_failure_timeout_distinct.2.2.2.2.2.1
    { records := [], nextId := 0 } sampleDraft sample404 5 10
    (by decide) (by decide)

/-! ## fastify-api-reference plugin (fastifyApiReference.ts) -/

/-- The `apiReference` option block of the plugin. `specPresent` models
whether `spec` is provided (any provided object or function is truthy);
`specUrl` keeps its string, since the source tests it with JavaScript
truthiness, under which the empty string counts as absent. -/
structure ApiReferenceConfig where
  specPresent : Bool
  specUrl : Option String
  title : Option String
deriving DecidableEq

/-- The plugin options: `routePrefix` (defaulted with `?? '/'` in the
source, so modelled as optional) and the optional `apiReference` block. -/
structure FastifyOptions where
  routePrefix : Option String
  apiReference : Option ApiReferenceConfig
deriving DecidableEq

/-- One registered route: method, url and the content type its handler
sets. -/
structure FastifyRoute where
  method : String
  url : String
  contentType : String
deriving DecidableEq

/-- Truthiness of `options.apiReference?.spec` in the source's guard. -/
def specTruthy (o : FastifyOptions) : Bool :=
  match o.apiReference with
  | none => false
  | some c => c.specPresent

/-- Truthiness of `options.apiReference?.specUrl` in the source's guard: a
missing block, a missing string and the empty string are all falsy. -/
def specUrlTruthy (o : FastifyOptions) : Bool :=
  match o.apiReference with
  | none => false
  | some c =>
    match c.specUrl with
    | none => false
    | some s => !(s == "")

/-- The plugin body of fastifyApiReference.ts: when neither `spec` nor
`specUrl` is truthy and @fastify/swagger is not registered, it warns and
returns without registering any route; otherwise it registers a GET route at
`options.routePrefix ?? '/'` serving HTML and a GET route at that prefix plus
`/fastify-api-reference.js` serving JavaScript. Returns the registered routes
and whether the warning was emitted. -/
def fastifyApiReference (hasSwaggerPlugin : Bool) (options : FastifyOptions) :
    List FastifyRoute × Bool :=
  if !specTruthy options && !specUrlTruthy options && !hasSwaggerPlugin then
    ([], true)
  else
    ([{ method := "GET", url := options.routePrefix.getD "/"
        contentType := "text/html; charset=utf-8" },
      { method := "GET"
        url := options.routePrefix.getD "/" ++ "/fastify-api-reference.js"
        contentType := "application/javascript; charset=utf-8" }], false)

/-! ## Claim C9: plugin route registration -/

/-- C9 fails as stated: with `specUrl` present but equal to the empty string
(and no spec, no swagger plugin), the claim requires the two routes to be
registered, but the source's truthiness guard treats the empty string like an
absent value and registers no route. -/
theorem fastify_empty_specUrl_registers_nothing :
    (fastifyApiReference false
      { routePrefix := none
        apiReference := some
          { specPresent := false, specUrl := some "", title := none } }).1 =
      [] := by
  decide

/-- C9 amended: the plugin registers no routes — warning instead — exactly
when `spec` is absent, `specUrl` is absent or the empty string, and
@fastify/swagger is not registered; in every other configuration it registers
a GET route at `routePrefix ?? '/'` serving HTML and a GET route at that
prefix plus `/fastify-api-reference.js` serving JavaScript. -/
theorem fastify_route_registration (hasSwagger : Bool) (o : FastifyOptions) :
    (specTruthy o = false → specUrlTruthy o = false → hasSwagger = false →
      fastifyApiReference hasSwagger o = ([], true))
    ∧ (specTruthy o = true ∨ specUrlTruthy o = true ∨ hasSwagger = true →
      fastifyApiReference hasSwagger o =
        ([{ method := "GET", url := o.routePrefix.getD "/"
            contentType := "text/html; charset=utf-8" },
          { method := "GET"
            url := o.routePrefix.getD "/" ++ "/fastify-api-reference.js"
            contentType := "application/javascript; charset=utf-8" }],
          false)) := by
  constructor
  · intro h1 h2 h3
    simp [fastifyApiReference, h1, h2, h3]
  · intro h
    rcases h with h | h | h <;> simp [fastifyApiReference, h]

/-- Witness for C9 amended: with a provided spec and a custom prefix, both
routes are registered at the prefixed urls. -/
theorem fastify_route_registration_witness :
    fastifyApiReference false
      { routePrefix := some "/docs"
        apiReference := some
          { specPresent := true, specUrl := none, title := none } } =
      ([{ method := "GET"
          url := Option.getD (some "/docs") "/"
          contentType := "text/html; charset=utf-8" },
        { method := "GET"
          url := Option.getD (some "/docs") "/" ++ "/fastify-api-reference.js"
          contentType := "application/javascript; charset=utf-8" }],
        false) :=
  (fastify_route_registration false
    { routePrefix := some "/docs"
      apiReference := some
        { specPresent := true, specUrl := none, title := none } }).2
    (Or.inl rfl)

/-! ## ApiReference component: fetchSpecUrl -/

/-- Outcome of the `fetch` of the spec url: a response with ok status and its
text, a response that is not ok (the handler throws and the error is only
logged), or a network error (the promise rejects and the error is only
logged). -/
inductive FetchOutcome
  | ok (text : String)
  | notOk
  | networkError
deriving DecidableEq

/-- The `fetchSpecUrl` function of the ApiReference component
(src/unnamed/part_001): it returns immediately — issuing no request — when
`props.specUrl` is undefined or has length zero; otherwise it fetches, and
only an ok response overwrites the stored spec string `specRef`; a not-ok
response or a failed fetch leaves it unchanged. Returns whether a request was
issued together with the resulting `specRef` value. -/
def fetchSpecUrl (specUrl : Option String)
    (fetchResult : String → FetchOutcome) (specRef : String) : Bool × String :=
  match specUrl with
  | none => (false, specRef)
  | some u =>
    if u.length = 0 then (false, specRef)
    else
      match fetchResult u with
      | .ok t => (true, t)
      | .notOk => (true, specRef)
      | .networkError => (true, specRef)

/-! ## Claim C10: fetchSpecUrl guards and never clobbers on failure -/

/-- C10: no request is issued when the spec url is undefined or empty (and
the stored spec keeps its value); when the fetched response is not ok, or the
fetch fails, the stored spec string keeps its previous value; only an ok
response overwrites it. -/
theorem fetchSpecUrl_no_request_and_keeps_spec
    (f : String → FetchOutcome) (s : String) :
    (fetchSpecUrl none f s = (false, s))
    ∧ (fetchSpecUrl (some "") f s = (false, s))
    ∧ (∀ u : String, u.length ≠ 0 → f u = .notOk →
      fetchSpecUrl (some u) f s = (true, s))
    ∧ (∀ u : String, u.length ≠ 0 → f u = .networkError →
      fetchSpecUrl (some u) f s = (true, s))
    ∧ (∀ (u t : String), u.length ≠ 0 → f u = .ok t →
      fetchSpecUrl (some u) f s = (true, t)) := by
  refine ⟨rfl, rfl, ?_, ?_, ?_⟩
  · intro u hu hf
    simp [fetchSpecUrl, hu, hf]
  · intro u hu hf
    simp [fetchSpecUrl, hu, hf]
  · intro u t hu hf
    simp [fetchSpecUrl, hu, hf]

/-- Witness for C10: a fetch that answers not-ok leaves the stored spec
unchanged. -/
theorem fetchSpecUrl_keeps_spec_witness :
    fetchSpecUrl (some "http://x/spec.json") (fun _ => FetchOutcome.notOk)
      "previous spec" = (true, "previous spec") :=
  (fetchSpecUrl_no_request_and_keeps_spec (fun _ => FetchOutcome.notOk)
    "previous spec").2.2.1 "http://x/spec.json" (by decide) rfl

end Scalar
